import Mathlib

/-!
Shallow embedding of `kalamar/item.py` (the Dyko/Kalamar item model):
the dual-namespace property router (`Item`), the lazy parser-property
cache, the format dispatcher, the trivial `BinaryItem` variant and the
composite `CapsuleItem`.

Python values that flow through the property stores are either `None`
or bytestrings; we model them with `PyVal`.  The werkzeug `MultiDict`
and the helpers from `kalamar.utils` (`AliasedMultiDict`,
`ModificationTrackingList`, `ParserNotAvailable`) are not part of the
source file; their behaviour is modelled from the spec (see the doc
comments marked "Modelled from the spec").
-/

set_option autoImplicit false

/-- A Python value stored in a property map: `None` or a (byte)string. -/
inductive PyVal where
  | pnone : PyVal
  | pstr : String → PyVal
deriving Repr, DecidableEq

/-- Python truthiness coercion used by `self._opener() or ''` in
`Item._get_content`: `None` and the empty string are falsy and collapse
to the empty string; any other string is returned unchanged. -/
def PyVal.orEmpty : PyVal → String
  | PyVal.pnone => ""
  | PyVal.pstr s => s

/-- Modelled from the spec: the multi-valued ordered map (werkzeug
`MultiDict`, §4.1 of the spec) restricted to the single-value accessors
the router uses.  An association list with (here always) unique keys:
`MultiDict(dict)` copies the dict's key/value pairs. -/
abbrev MultiDict := List (String × PyVal)

/-- First value associated with a key (`MultiDict.__getitem__` minus the
`KeyError`, which is reported as `none`). -/
def mdFind (d : MultiDict) (k : String) : Option PyVal :=
  (d.find? (fun p => p.1 == k)).map (fun p => p.2)

/-- Key membership test (`key in multidict`). -/
def mdContains (d : MultiDict) (k : String) : Bool :=
  d.any (fun p => p.1 == k)

/-- Modelled from the spec: `MultiDict.__setitem__` replaces all values
bound to the key by the single given value, keeping the key's position;
a new key is added at the end. -/
def mdSet (d : MultiDict) (k : String) (v : PyVal) : MultiDict :=
  if mdContains d k then d.map (fun p => if p.1 == k then (k, v) else p)
  else d ++ [(k, v)]

/-- The list of keys of the map (`MultiDict.keys()`). -/
def mdKeys (d : MultiDict) : List String := d.map (fun p => p.1)

/-- Alias translation: map an alias to its canonical key when the alias
table has it, otherwise leave the key unchanged (spec §4.1). -/
def aliasResolve (aliases : List (String × String)) (k : String) : String :=
  match aliases.lookup k with
  | some c => c
  | none => k

/-- Modelled from the spec: `utils.AliasedMultiDict` read — translate the
alias, then delegate to the wrapped `MultiDict`. -/
def amdGet (aliases : List (String × String)) (d : MultiDict) (k : String) :
    Option PyVal :=
  mdFind d (aliasResolve aliases k)

/-- Modelled from the spec: `utils.AliasedMultiDict` write — translate
the alias, then delegate to the wrapped `MultiDict`. -/
def amdSet (aliases : List (String × String)) (d : MultiDict) (k : String)
    (v : PyVal) : MultiDict :=
  mdSet d (aliasResolve aliases k) v

/-- Modelled from the spec: `utils.AliasedMultiDict` membership test —
translate the alias, then test the wrapped `MultiDict`'s canonical keys. -/
def amdContains (aliases : List (String × String)) (d : MultiDict)
    (k : String) : Bool :=
  mdContains d (aliasResolve aliases k)

/-- Modelled from the spec: `utils.AliasedMultiDict.keys()` returns the
canonical keys of the wrapped map only. -/
def amdKeys (_aliases : List (String × String)) (d : MultiDict) :
    List String :=
  mdKeys d

/-- Which concrete `Item` subclass an instance was built from; determines
the `_parse_data` and `serialize` overrides. -/
inductive ItemKind where
  | base
  | binary
  | capsule
deriving Repr, DecidableEq

/-- Modelled from the spec: `utils.ModificationTrackingList` (spec §4.4)
abstracted to what the capsule reads from it — each element's current
`modified` report and the structure-changed flag. -/
structure TrackingList where
  elemsModified : List Bool
  structureChanged : Bool
deriving Repr, DecidableEq

/-- Modelled from the spec: the tracking sequence is modified iff its
structure changed or some contained element reports itself modified;
re-evaluated at each access. -/
def TrackingList.modified (l : TrackingList) : Bool :=
  l.structureChanged || l.elemsModified.any (fun b => b)

/-- The `AccessPoint` interface consumed by `Item` (spec §6). -/
structure AccessPoint where
  storage_aliases : List (String × String)
  parser_aliases : List (String × String)
  parser_name : Option String
  default_encoding : String
  storage_property_names : List String
deriving Repr, DecidableEq

/-- State of one `Item` instance.  `openerVal` is the value the stored
`_opener` would return (`opener or str`: a missing opener is replaced by
`str`, which returns the empty string).  `openerCalls` and
`parseDataCalls` count invocations of the opener and of `_parse_data`,
to state the laziness guarantees.  `parser_modified_own` is the
`parser_modified` attribute of a plain item and the `_parser_modified`
attribute of a capsule; `subitems` is only meaningful for capsules. -/
structure ItemState where
  kind : ItemKind
  openerVal : PyVal
  rawContent : Option String
  openerCalls : Nat
  storageAliases : List (String × String)
  parserAliases : List (String × String)
  storage_modified : Bool
  parser_modified_own : Bool
  rawStorageProperties : MultiDict
  oldStorageProperties : MultiDict
  rawParserProperties : Option MultiDict
  parseDataCalls : Nat
  subitems : TrackingList
deriving Repr, DecidableEq

/-- `Item.__init__` (and `CapsuleItem.__init__`, which only adds the own
parser flag, already covered): snapshot the access point's alias tables,
copy `storage_properties` into `raw_storage_properties` and
`old_storage_properties`, clear both modification flags, and leave raw
content and parser properties uncomputed. -/
def itemInit (ap : AccessPoint) (kind : ItemKind) (opener : Option PyVal)
    (storage_properties : MultiDict) : ItemState :=
  { kind := kind
    openerVal := (opener.getD (PyVal.pstr ""))
    rawContent := none
    openerCalls := 0
    storageAliases := ap.storage_aliases
    parserAliases := ap.parser_aliases
    storage_modified := false
    parser_modified_own := false
    rawStorageProperties := storage_properties
    oldStorageProperties := storage_properties
    rawParserProperties := none
    parseDataCalls := 0
    subitems := TrackingList.mk [] false }

/-- `Item._get_content`: memoize the opener's result (`None`/empty
coerced to the empty string) in `_raw_content`; the opener runs only on
the first call. -/
def getContent (st : ItemState) : String × ItemState :=
  match st.rawContent with
  | some c => (c, st)
  | none =>
      let c := st.openerVal.orEmpty
      (c, { st with rawContent := some c, openerCalls := st.openerCalls + 1 })

/-- `_parse_data`, dispatched on the concrete class: the base `Item`
(and `CapsuleItem`, which inherits it) returns an empty `MultiDict`
without touching the content; `BinaryItem._parse_data` reads the raw
content and binds it to the single key `data`. -/
def parseData (st : ItemState) : MultiDict × ItemState :=
  match st.kind with
  | ItemKind.binary =>
      let p := getContent st
      ([("data", PyVal.pstr p.1)],
        { p.2 with parseDataCalls := p.2.parseDataCalls + 1 })
  | _ => ([], { st with parseDataCalls := st.parseDataCalls + 1 })

/-- `Item.raw_parser_properties`, a `cached_property`: on first access
run `_parse_data` and memoize the resulting `MultiDict`. -/
def rawParserProps (st : ItemState) : MultiDict × ItemState :=
  match st.rawParserProperties with
  | some d => (d, st)
  | none =>
      let p := parseData st
      (p.1, { p.2 with rawParserProperties := some p.1 })

/-- `Item._is_storage_key`: storage alias wins, then parser alias, then
membership in the (aliased) storage store. -/
def isStorageKey (st : ItemState) (k : String) : Bool :=
  if (st.storageAliases.lookup k).isSome then true
  else if (st.parserAliases.lookup k).isSome then false
  else amdContains st.storageAliases st.rawStorageProperties k

/-- `Item.__getitem__`: route by `_is_storage_key`; a `KeyError` from
either store is caught and turned into `None`. -/
def itemGet (st : ItemState) (k : String) : PyVal × ItemState :=
  if isStorageKey st k then
    (match amdGet st.storageAliases st.rawStorageProperties k with
      | some v => v
      | none => PyVal.pnone, st)
  else
    let p := rawParserProps st
    (match amdGet p.2.parserAliases p.1 k with
      | some v => v
      | none => PyVal.pnone, p.2)

/-- `Item.__setitem__`: route by `_is_storage_key`, write through the
aliased view, and raise the namespace's modification flag.  A parser
write assigns `self.parser_modified = True`, which on a capsule goes
through the property setter and sets the own flag. -/
def itemSet (st : ItemState) (k : String) (v : PyVal) : ItemState :=
  if isStorageKey st k then
    { st with
      rawStorageProperties := amdSet st.storageAliases st.rawStorageProperties k v
      storage_modified := true }
  else
    let p := rawParserProps st
    { p.2 with
      rawParserProperties := some (amdSet p.2.parserAliases p.1 k v)
      parser_modified_own := true }

/-- `Item.keys`: deduplicated union of storage and parser keys (the
Python code builds a `set`); touching `parser_properties` forces the
lazy parse. -/
def itemKeys (st : ItemState) : List String × ItemState :=
  let p := rawParserProps st
  ((amdKeys st.storageAliases st.rawStorageProperties ++
      amdKeys p.2.parserAliases p.1).dedup, p.2)

/-- The `parser_modified` attribute as read on an instance: a plain
item reads the stored flag, a capsule goes through
`CapsuleItem._get_parser_modified` which ors in `subitems.modified`. -/
def parserModifiedOf (st : ItemState) : Bool :=
  match st.kind with
  | ItemKind.capsule => st.parser_modified_own || st.subitems.modified
  | _ => st.parser_modified_own

/-- `Item.modified`: the item changed iff a storage or a parser property
changed. -/
def itemModified (st : ItemState) : Bool :=
  st.storage_modified || parserModifiedOf st

/-- `CapsuleItem._set_parser_modified`: assigning `parser_modified` on a
capsule stores only the own flag. -/
def capsuleSetParserModified (st : ItemState) (v : Bool) : ItemState :=
  { st with parser_modified_own := v }

/-- `serialize`, dispatched on the concrete class: the base `Item` (and
`CapsuleItem`) returns the empty string; `BinaryItem.serialize` returns
`raw_parser_properties['data']` (forcing the lazy parse; a missing
`data` key would be an uncaught `KeyError`, reported as `none`). -/
def itemSerialize (st : ItemState) : Option PyVal × ItemState :=
  match st.kind with
  | ItemKind.binary =>
      let p := rawParserProps st
      (mdFind p.1 "data", p.2)
  | _ => (some (PyVal.pstr ""), st)

/-- `utils.ParserNotAvailable`, carrying the requested format name. -/
inductive KalamarError where
  | parserNotAvailable (name : String)
deriving Repr, DecidableEq

/-- Modelled from the spec: the variant registry that
`utils.recursive_subclasses(Item)` enumerates, in declaration order —
`BinaryItem` with format tag `binary`, then `CapsuleItem`, which
inherits `format = None` from `Item`. -/
def registeredFormats : List (Option String × ItemKind) :=
  [(some "binary", ItemKind.binary), (none, ItemKind.capsule)]

/-- `Item.get_item_parser` (the format dispatcher): a `None` parser name
returns the untyped base `Item` built with a `None` opener; otherwise
the first subclass whose `format` equals the parser name is
instantiated with the caller's opener; no match raises
`ParserNotAvailable` with the requested name. -/
def getItemParser (ap : AccessPoint) (opener : Option PyVal)
    (storage_properties : MultiDict) : Except KalamarError ItemState :=
  match ap.parser_name with
  | none => Except.ok (itemInit ap ItemKind.base none storage_properties)
  | some name =>
      match registeredFormats.find? (fun p => p.1 == some name) with
      | some pr => Except.ok (itemInit ap pr.2 opener storage_properties)
      | none => Except.error (KalamarError.parserNotAvailable name)

deriving instance DecidableEq for Except

/-- The get/set/keys operations of the claims, as state transformers. -/
inductive Op where
  | get (k : String)
  | set (k : String) (v : PyVal)
  | keys
deriving Repr, DecidableEq

/-- Run one operation for its state effect. -/
def runOp (st : ItemState) (o : Op) : ItemState :=
  match o with
  | Op.get k => (itemGet st k).2
  | Op.set k v => itemSet st k v
  | Op.keys => (itemKeys st).2

/-- Run a sequence of operations. -/
def runOps (st : ItemState) (l : List Op) : ItemState :=
  l.foldl runOp st

/-- A heap of Python `dict`/`MultiDict` objects, to express the aliasing
and framing behaviour of `Item.__init__`: cells are addressed by index;
an out-of-range read returns the empty map. -/
structure Heap where
  cells : List MultiDict
deriving Repr, DecidableEq

/-- Read the map stored in a cell. -/
def Heap.read (h : Heap) (r : Nat) : MultiDict :=
  (h.cells[r]?).getD []

/-- Allocate a fresh cell holding `d`; returns its address. -/
def Heap.alloc (h : Heap) (d : MultiDict) : Nat × Heap :=
  (h.cells.length, Heap.mk (h.cells ++ [d]))

/-- Overwrite the contents of a cell. -/
def Heap.write (h : Heap) (r : Nat) (d : MultiDict) : Heap :=
  Heap.mk (h.cells.set r d)

/-- The two storage-side `MultiDict` objects an item owns. -/
structure ItemRefs where
  rawStorageRef : Nat
  oldStorageRef : Nat
deriving Repr, DecidableEq

/-- The heap effect of `Item.__init__` on the `storage_properties`
argument (a reference to a caller-owned mapping, possibly the shared
mutable default `{}`): `MultiDict(storage_properties)` copies its value
into two freshly allocated objects, `raw_storage_properties` and
`old_storage_properties`; the argument cell itself is never written. -/
def itemInitHeap (h : Heap) (argRef : Nat) : ItemRefs × Heap :=
  let d := h.read argRef
  let a1 := h.alloc d
  let a2 := a1.2.alloc d
  (ItemRefs.mk a1.1 a2.1, a2.2)

/-- The heap effect of a storage-namespace `__setitem__`: mutate the
item's own `raw_storage_properties` object in place through the aliased
view. -/
def itemSetStorageHeap (h : Heap) (it : ItemRefs)
    (aliases : List (String × String)) (k : String) (v : PyVal) : Heap :=
  h.write it.rawStorageRef (amdSet aliases (h.read it.rawStorageRef) k v)

/-- Concrete item used by several witnesses: storage alias `a → x`,
parser alias `b → y`, storage store with canonical keys `a` and `b`. -/
def stC1 : ItemState :=
  itemInit (AccessPoint.mk [("a", "x")] [("b", "y")] none "utf-8" [])
    ItemKind.base none [("a", PyVal.pstr "1"), ("b", PyVal.pstr "2")]

/-- Invariant tying the memoization cells to the invocation counters:
`_parse_data` (resp. the opener) has run at most once, and has not run
at all while its cache is still empty. -/
def lazyInv (st : ItemState) : Prop :=
  st.parseDataCalls ≤ 1 ∧ st.openerCalls ≤ 1 ∧
  (st.rawParserProperties = none → st.parseDataCalls = 0) ∧
  (st.rawContent = none → st.openerCalls = 0)

/-- Concrete capsule state whose subitem sequence reports a modified
child; used by witnesses. -/
def stC8 : ItemState :=
  { itemInit (AccessPoint.mk [] [] none "e" []) ItemKind.capsule none [] with
    subitems := TrackingList.mk [true] false }

/-- Access point with a null parser name, for the C9 counterexample. -/
def apC9 : AccessPoint := AccessPoint.mk [] [] none "utf-8" []

theorem mdFind_cons_ne (p : String × PyVal) (t : MultiDict) (c : String)
    (h : (p.1 == c) = false) : mdFind (p :: t) c = mdFind t c := by
  simp [mdFind, List.find?_cons, h]

theorem mdFind_cons_eq (p : String × PyVal) (t : MultiDict) (c : String)
    (h : (p.1 == c) = true) : mdFind (p :: t) c = some p.2 := by
  simp [mdFind, List.find?_cons, h]

theorem mdContains_cons (p : String × PyVal) (t : MultiDict) (c : String) :
    mdContains (p :: t) c = ((p.1 == c) || mdContains t c) := by
  simp [mdContains]

theorem mdFind_append_right (d : MultiDict) (c : String) (v : PyVal)
    (h : mdContains d c = false) : mdFind (d ++ [(c, v)]) c = some v := by
  induction d with
  | nil => simp [mdFind]
  | cons p t ih =>
      rw [mdContains_cons, Bool.or_eq_false_iff] at h
      rw [List.cons_append, mdFind_cons_ne _ _ _ h.1]
      exact ih h.2

theorem mdFind_map_set (d : MultiDict) (c : String) (v : PyVal)
    (h : mdContains d c = true) :
    mdFind (d.map (fun p => if p.1 == c then (c, v) else p)) c = some v := by
  induction d with
  | nil => simp [mdContains] at h
  | cons p t ih =>
      rw [List.map_cons]
      by_cases hp : (p.1 == c) = true
      · rw [if_pos hp]
        exact mdFind_cons_eq (c, v) _ c (by simp)
      · have hp' : (p.1 == c) = false := by
          cases hb : (p.1 == c) with
          | true => exact absurd hb hp
          | false => rfl
        rw [if_neg (by simp [hp'])]
        rw [mdContains_cons, hp', Bool.false_or] at h
        rw [mdFind_cons_ne _ _ _ hp']
        exact ih h

theorem mdFind_mdSet_self (d : MultiDict) (c : String) (v : PyVal) :
    mdFind (mdSet d c v) c = some v := by
  unfold mdSet
  cases h : mdContains d c with
  | true =>
      rw [if_pos rfl]
      exact mdFind_map_set d c v h
  | false =>
      rw [if_neg (by simp)]
      exact mdFind_append_right d c v h

theorem mdContains_map_set (d : MultiDict) (c : String) (v : PyVal)
    (h : mdContains d c = true) :
    mdContains (d.map (fun p => if p.1 == c then (c, v) else p)) c = true := by
  induction d with
  | nil => simp [mdContains] at h
  | cons p t ih =>
      rw [List.map_cons]
      by_cases hp : (p.1 == c) = true
      · rw [if_pos hp, mdContains_cons]
        simp
      · have hp' : (p.1 == c) = false := by
          cases hb : (p.1 == c) with
          | true => exact absurd hb hp
          | false => rfl
        rw [if_neg (by simp [hp']), mdContains_cons, hp', Bool.false_or]
        rw [mdContains_cons, hp', Bool.false_or] at h
        exact ih h

theorem mdContains_mdSet_self (d : MultiDict) (c : String) (v : PyVal) :
    mdContains (mdSet d c v) c = true := by
  unfold mdSet
  cases h : mdContains d c with
  | true =>
      rw [if_pos rfl]
      exact mdContains_map_set d c v h
  | false =>
      rw [if_neg (by simp)]
      induction d with
      | nil => simp [mdContains]
      | cons p t ih =>
          rw [mdContains_cons, Bool.or_eq_false_iff] at h
          rw [List.cons_append, mdContains_cons, h.1, Bool.false_or]
          exact ih h.2

theorem rawParserProps_fields (st : ItemState) :
    (rawParserProps st).2.storageAliases = st.storageAliases ∧
    (rawParserProps st).2.parserAliases = st.parserAliases ∧
    (rawParserProps st).2.rawStorageProperties = st.rawStorageProperties ∧
    (rawParserProps st).2.storage_modified = st.storage_modified ∧
    (rawParserProps st).2.parser_modified_own = st.parser_modified_own ∧
    (rawParserProps st).2.kind = st.kind ∧
    (rawParserProps st).2.subitems = st.subitems ∧
    (rawParserProps st).2.rawParserProperties = some (rawParserProps st).1 := by
  cases hcache : st.rawParserProperties with
  | some d => simp [rawParserProps, hcache]
  | none =>
      cases hk : st.kind with
      | binary =>
          cases hc : st.rawContent with
          | some c => simp [rawParserProps, hcache, parseData, getContent, hk, hc]
          | none => simp [rawParserProps, hcache, parseData, getContent, hk, hc]
      | base => simp [rawParserProps, hcache, parseData, hk]
      | capsule => simp [rawParserProps, hcache, parseData, hk]

theorem amdGet_amdSet_self (aliases : List (String × String)) (d : MultiDict)
    (k : String) (v : PyVal) : amdGet aliases (amdSet aliases d k v) k = some v := by
  unfold amdGet amdSet
  exact mdFind_mdSet_self d (aliasResolve aliases k) v

theorem amdContains_amdSet_self (aliases : List (String × String)) (d : MultiDict)
    (k : String) (v : PyVal) : amdContains aliases (amdSet aliases d k v) k = true := by
  unfold amdContains amdSet
  exact mdContains_mdSet_self d (aliasResolve aliases k) v

theorem isStorageKey_fields_congr (s t : ItemState) (k : String)
    (h1 : s.storageAliases = t.storageAliases)
    (h2 : s.parserAliases = t.parserAliases)
    (h3 : s.rawStorageProperties = t.rawStorageProperties) :
    isStorageKey s k = isStorageKey t k := by
  unfold isStorageKey
  rw [h1, h2, h3]

theorem isStorageKey_after_storage_set (st : ItemState) (k : String) (v : PyVal)
    (h : isStorageKey st k = true) :
    isStorageKey { st with
      rawStorageProperties := amdSet st.storageAliases st.rawStorageProperties k v
      storage_modified := true } k = true := by
  unfold isStorageKey at h ⊢
  cases hsa : (st.storageAliases.lookup k) with
  | some c => simp [hsa]
  | none =>
      cases hpa : (st.parserAliases.lookup k) with
      | some c => simp [hsa, hpa] at h
      | none =>
          simp only [hsa, hpa, Option.isSome_none, Bool.false_eq_true, if_false] at h ⊢
          exact amdContains_amdSet_self st.storageAliases st.rawStorageProperties k v

/-- C1: key classification (`Item._is_storage_key`) is a total function
following the precedence storage alias, then parser alias, then
membership among the storage store's keys; in particular a storage alias
present in the storage store is Storage, and a parser alias that is not
a storage alias is Parser even when a same-named key exists in the
storage store. -/
theorem claim_C1_classification (st : ItemState) (k : String) :
    (∀ c, st.storageAliases.lookup k = some c → isStorageKey st k = true) ∧
    (st.storageAliases.lookup k = none →
      ∀ c, st.parserAliases.lookup k = some c → isStorageKey st k = false) ∧
    (st.storageAliases.lookup k = none → st.parserAliases.lookup k = none →
      isStorageKey st k = amdContains st.storageAliases st.rawStorageProperties k) ∧
    (∀ c, st.storageAliases.lookup k = some c →
      mdContains st.rawStorageProperties k = true → isStorageKey st k = true) ∧
    (st.storageAliases.lookup k = none →
      ∀ c, st.parserAliases.lookup k = some c →
        mdContains st.rawStorageProperties k = true → isStorageKey st k = false) := by
  refine ⟨?_, ?_, ?_, ?_, ?_⟩
  · intro c h
    simp [isStorageKey, h]
  · intro h c hp
    simp [isStorageKey, h, hp]
  · intro h hp
    simp [isStorageKey, h, hp]
  · intro c h _
    simp [isStorageKey, h]
  · intro h c hp _
    simp [isStorageKey, h, hp]

theorem claim_C1_classification_witness :
    isStorageKey stC1 "a" = true ∧ isStorageKey stC1 "b" = false := by
  refine ⟨(claim_C1_classification stC1 "a").2.2.2.1 "x" (by decide) (by decide),
    (claim_C1_classification stC1 "b").2.2.2.2 (by decide) "y" (by decide) (by decide)⟩

theorem itemSet_storage_eq (st : ItemState) (k : String) (v : PyVal)
    (h : isStorageKey st k = true) :
    itemSet st k v = { st with
      rawStorageProperties := amdSet st.storageAliases st.rawStorageProperties k v
      storage_modified := true } := by
  simp [itemSet, h]

theorem itemSet_parser_eq (st : ItemState) (k : String) (v : PyVal)
    (h : isStorageKey st k = false) :
    itemSet st k v = { (rawParserProps st).2 with
      rawParserProperties :=
        some (amdSet (rawParserProps st).2.parserAliases (rawParserProps st).1 k v)
      parser_modified_own := true } := by
  simp [itemSet, h]

/-- C2: after `item[k] = v`, reading `item[k]` returns `v`; the
modification flag of the namespace `k` classifies to becomes true while
the other namespace's flag is unchanged by the write (the parser-side
flag is the `parser_modified` attribute as observed on the instance,
i.e. the aggregate getter on a capsule). -/
theorem claim_C2_set_get (st : ItemState) (k : String) (v : PyVal) :
    (itemGet (itemSet st k v) k).1 = v ∧
    (isStorageKey st k = true →
      (itemSet st k v).storage_modified = true ∧
      parserModifiedOf (itemSet st k v) = parserModifiedOf st) ∧
    (isStorageKey st k = false →
      parserModifiedOf (itemSet st k v) = true ∧
      (itemSet st k v).storage_modified = st.storage_modified) := by
  obtain ⟨f1, f2, f3, f4, f5, f6, f7, f8⟩ := rawParserProps_fields st
  cases hs : isStorageKey st k with
  | true =>
      rw [itemSet_storage_eq st k v hs]
      refine ⟨?_, fun _ => ⟨rfl, ?_⟩, fun hno => by simp [hs] at hno⟩
      · have hs' := isStorageKey_after_storage_set st k v hs
        unfold itemGet
        rw [if_pos hs']
        simp [amdGet_amdSet_self]
      · unfold parserModifiedOf
        cases hk : st.kind <;> simp [hk]
  | false =>
      rw [itemSet_parser_eq st k v hs]
      refine ⟨?_, fun hyes => by simp [hs] at hyes, fun _ => ⟨?_, ?_⟩⟩
      · have hsk' : isStorageKey { (rawParserProps st).2 with
            rawParserProperties :=
              some (amdSet (rawParserProps st).2.parserAliases (rawParserProps st).1 k v)
            parser_modified_own := true } k = false := by
          rw [isStorageKey_fields_congr _ st k (by exact f1) (by exact f2) (by exact f3)]
          exact hs
        unfold itemGet
        rw [if_neg (by simp [hsk'])]
        simp [rawParserProps, amdGet_amdSet_self]
      · unfold parserModifiedOf
        cases hk : st.kind <;> simp [f6, hk]
      · exact f4

theorem claim_C2_set_get_witness :
    (itemGet (itemSet stC1 "a" (PyVal.pstr "z")) "a").1 = PyVal.pstr "z" ∧
    (itemSet stC1 "a" (PyVal.pstr "z")).storage_modified = true ∧
    parserModifiedOf (itemSet stC1 "a" (PyVal.pstr "z")) = parserModifiedOf stC1 ∧
    (itemGet (itemSet stC1 "q" (PyVal.pstr "w")) "q").1 = PyVal.pstr "w" ∧
    parserModifiedOf (itemSet stC1 "q" (PyVal.pstr "w")) = true ∧
    (itemSet stC1 "q" (PyVal.pstr "w")).storage_modified = stC1.storage_modified := by
  refine ⟨(claim_C2_set_get stC1 "a" (PyVal.pstr "z")).1,
    ((claim_C2_set_get stC1 "a" (PyVal.pstr "z")).2.1 (by decide)).1,
    ((claim_C2_set_get stC1 "a" (PyVal.pstr "z")).2.1 (by decide)).2,
    (claim_C2_set_get stC1 "q" (PyVal.pstr "w")).1,
    ((claim_C2_set_get stC1 "q" (PyVal.pstr "w")).2.2 (by decide)).1,
    ((claim_C2_set_get stC1 "q" (PyVal.pstr "w")).2.2 (by decide)).2⟩

/-- C3: reading a key that has no value in the namespace it classifies
to returns the `None` sentinel and never raises (the `KeyError` is
caught inside `__getitem__`); in particular any non-storage key of a
freshly constructed untyped item reads as `None`. -/
theorem claim_C3_missing_key (st : ItemState) (k : String) :
    (isStorageKey st k = true →
      amdGet st.storageAliases st.rawStorageProperties k = none →
      (itemGet st k).1 = PyVal.pnone) ∧
    (isStorageKey st k = false →
      amdGet st.parserAliases (rawParserProps st).1 k = none →
      (itemGet st k).1 = PyVal.pnone) ∧
    (∀ ap opener d, isStorageKey (itemInit ap ItemKind.base opener d) k = false →
      (itemGet (itemInit ap ItemKind.base opener d) k).1 = PyVal.pnone) := by
  obtain ⟨f1, f2, f3, f4, f5, f6, f7, f8⟩ := rawParserProps_fields st
  refine ⟨?_, ?_, ?_⟩
  · intro hs hm
    simp [itemGet, hs, hm]
  · intro hs hm
    rw [← f2] at hm
    simp [itemGet, hs, hm]
  · intro ap opener d hs
    unfold itemGet
    rw [if_neg (by simp [hs])]
    simp [itemInit, rawParserProps, parseData, amdGet, mdFind]

theorem claim_C3_missing_key_witness :
    (itemGet stC1 "a").1 = PyVal.pnone ∧
    (itemGet (itemInit (AccessPoint.mk [] [] none "e" []) ItemKind.base none [])
      "zz").1 = PyVal.pnone := by
  refine ⟨(claim_C3_missing_key stC1 "a").1 (by decide) (by decide),
    (claim_C3_missing_key stC1 "zz").2.2 (AccessPoint.mk [] [] none "e" []) none []
      (by decide)⟩

/-- C4: dispatch with a `None` parser name returns the untyped base
item, whose `_parse_data` yields an empty store and whose `serialize`
yields empty content; a non-null name matching no registered format
raises `ParserNotAvailable` carrying that name; a matching name
instantiates the first subclass with that format tag. -/
theorem claim_C4_dispatch (ap : AccessPoint) (opener : Option PyVal) (d : MultiDict) :
    (ap.parser_name = none →
      getItemParser ap opener d = Except.ok (itemInit ap ItemKind.base none d) ∧
      (parseData (itemInit ap ItemKind.base none d)).1 = [] ∧
      (itemSerialize (itemInit ap ItemKind.base none d)).1 = some (PyVal.pstr "")) ∧
    (∀ name, ap.parser_name = some name → name ≠ "binary" →
      getItemParser ap opener d = Except.error (KalamarError.parserNotAvailable name)) ∧
    (ap.parser_name = some "binary" →
      getItemParser ap opener d = Except.ok (itemInit ap ItemKind.binary opener d)) := by
  refine ⟨?_, ?_, ?_⟩
  · intro h
    refine ⟨by simp [getItemParser, h], by simp [parseData, itemInit],
      by simp [itemSerialize, itemInit]⟩
  · intro name h hne
    have hb : ("binary" == name) = false := beq_eq_false_iff_ne.mpr (Ne.symm hne)
    simp [getItemParser, h, registeredFormats, List.find?, hb]
  · intro h
    simp [getItemParser, h, registeredFormats, List.find?]

theorem claim_C4_dispatch_witness :
    (getItemParser (AccessPoint.mk [] [] none "e" []) none [] =
      Except.ok (itemInit (AccessPoint.mk [] [] none "e" []) ItemKind.base none [])) ∧
    (parseData (itemInit (AccessPoint.mk [] [] none "e" []) ItemKind.base none [])).1 = [] ∧
    (itemSerialize (itemInit (AccessPoint.mk [] [] none "e" []) ItemKind.base none [])).1 =
      some (PyVal.pstr "") ∧
    (getItemParser (AccessPoint.mk [] [] (some "nope") "e" []) none [] =
      Except.error (KalamarError.parserNotAvailable "nope")) ∧
    (getItemParser (AccessPoint.mk [] [] (some "binary") "e" []) none [] =
      Except.ok (itemInit (AccessPoint.mk [] [] (some "binary") "e" [])
        ItemKind.binary none [])) := by
  refine ⟨((claim_C4_dispatch (AccessPoint.mk [] [] none "e" []) none []).1 rfl).1,
    ((claim_C4_dispatch (AccessPoint.mk [] [] none "e" []) none []).1 rfl).2.1,
    ((claim_C4_dispatch (AccessPoint.mk [] [] none "e" []) none []).1 rfl).2.2,
    (claim_C4_dispatch (AccessPoint.mk [] [] (some "nope") "e" []) none []).2.1
      "nope" rfl (by decide),
    (claim_C4_dispatch (AccessPoint.mk [] [] (some "binary") "e" []) none []).2.2 rfl⟩

theorem rawParserProps_cached (st : ItemState) (d : MultiDict)
    (h : st.rawParserProperties = some d) : rawParserProps st = (d, st) := by
  simp [rawParserProps, h]

theorem rawParserProps_base (st : ItemState)
    (hc : st.rawParserProperties = none) (hk : st.kind = ItemKind.base) :
    rawParserProps st = ([],
      { st with rawParserProperties := some [],
                parseDataCalls := st.parseDataCalls + 1 }) := by
  simp [rawParserProps, hc, parseData, hk]

theorem rawParserProps_capsule (st : ItemState)
    (hc : st.rawParserProperties = none) (hk : st.kind = ItemKind.capsule) :
    rawParserProps st = ([],
      { st with rawParserProperties := some [],
                parseDataCalls := st.parseDataCalls + 1 }) := by
  simp [rawParserProps, hc, parseData, hk]

theorem rawParserProps_binary_cached_content (st : ItemState) (c : String)
    (hc : st.rawParserProperties = none) (hk : st.kind = ItemKind.binary)
    (hr : st.rawContent = some c) :
    rawParserProps st = ([("data", PyVal.pstr c)],
      { st with rawParserProperties := some [("data", PyVal.pstr c)],
                parseDataCalls := st.parseDataCalls + 1 }) := by
  simp [rawParserProps, hc, parseData, getContent, hk, hr]

theorem rawParserProps_binary_fresh (st : ItemState)
    (hc : st.rawParserProperties = none) (hk : st.kind = ItemKind.binary)
    (hr : st.rawContent = none) :
    rawParserProps st = ([("data", PyVal.pstr st.openerVal.orEmpty)],
      { st with rawContent := some st.openerVal.orEmpty,
                openerCalls := st.openerCalls + 1,
                rawParserProperties := some [("data", PyVal.pstr st.openerVal.orEmpty)],
                parseDataCalls := st.parseDataCalls + 1 }) := by
  simp [rawParserProps, hc, parseData, getContent, hk, hr]

theorem lazyInv_rawParserProps (st : ItemState) (h : lazyInv st) :
    lazyInv (rawParserProps st).2 := by
  obtain ⟨h1, h2, h3, h4⟩ := h
  cases hcache : st.rawParserProperties with
  | some d =>
      rw [rawParserProps_cached st d hcache]
      exact ⟨h1, h2, h3, h4⟩
  | none =>
      have hpd : st.parseDataCalls = 0 := h3 hcache
      cases hk : st.kind with
      | base =>
          rw [rawParserProps_base st hcache hk]
          refine ⟨by simp [hpd], h2, fun hcc => ?_, h4⟩
          simp at hcc
      | capsule =>
          rw [rawParserProps_capsule st hcache hk]
          refine ⟨by simp [hpd], h2, fun hcc => ?_, h4⟩
          simp at hcc
      | binary =>
          cases hr : st.rawContent with
          | some c =>
              rw [rawParserProps_binary_cached_content st c hcache hk hr]
              refine ⟨by simp [hpd], h2, fun hcc => ?_, fun hrr => ?_⟩
              · simp at hcc
              · simp [hr] at hrr
          | none =>
              have hop : st.openerCalls = 0 := h4 hr
              rw [rawParserProps_binary_fresh st hcache hk hr]
              refine ⟨by simp [hpd], by simp [hop], fun hcc => ?_, fun hrr => ?_⟩
              · simp at hcc
              · simp at hrr

theorem lazyInv_runOp (st : ItemState) (o : Op) (h : lazyInv st) :
    lazyInv (runOp st o) := by
  cases o with
  | get k =>
      show lazyInv (itemGet st k).2
      unfold itemGet
      cases hs : isStorageKey st k with
      | true => simpa using h
      | false => simpa using lazyInv_rawParserProps st h
  | set k v =>
      show lazyInv (itemSet st k v)
      cases hs : isStorageKey st k with
      | true =>
          rw [itemSet_storage_eq st k v hs]
          obtain ⟨h1, h2, h3, h4⟩ := h
          exact ⟨h1, h2, h3, h4⟩
      | false =>
          rw [itemSet_parser_eq st k v hs]
          obtain ⟨h1, h2, h3, h4⟩ := lazyInv_rawParserProps st h
          refine ⟨h1, h2, fun hcc => ?_, h4⟩
          simp at hcc
  | keys =>
      show lazyInv (itemKeys st).2
      unfold itemKeys
      exact lazyInv_rawParserProps st h

theorem lazyInv_runOps (st : ItemState) (l : List Op) (h : lazyInv st) :
    lazyInv (runOps st l) := by
  induction l generalizing st with
  | nil => exact h
  | cons o t ih => exact ih (runOp st o) (lazyInv_runOp st o h)

/-- C5: construction runs neither the opener nor `_parse_data`; over any
sequence of get/set/keys operations each of them runs at most once —
`raw_parser_properties` and `_raw_content` are memoized, so the first
touch of the parser namespace is the only invocation. -/
theorem claim_C5_lazy_once (ap : AccessPoint) (kind : ItemKind)
    (opener : Option PyVal) (d : MultiDict) (l : List Op) :
    (itemInit ap kind opener d).parseDataCalls = 0 ∧
    (itemInit ap kind opener d).openerCalls = 0 ∧
    (runOps (itemInit ap kind opener d) l).parseDataCalls ≤ 1 ∧
    (runOps (itemInit ap kind opener d) l).openerCalls ≤ 1 := by
  have h0 : lazyInv (itemInit ap kind opener d) := by
    simp [lazyInv, itemInit]
  have h1 := lazyInv_runOps (itemInit ap kind opener d) l h0
  exact ⟨rfl, rfl, h1.1, h1.2.1⟩

/-- C6: in every state reachable by get/set/keys operations, `modified`
holds iff `storage_modified` or `parser_modified` holds, where the
parser flag read on a capsule is the aggregate getter value. -/
theorem claim_C6_modified_iff (st : ItemState) (l : List Op) :
    (itemModified (runOps st l) = true ↔
      ((runOps st l).storage_modified = true ∨
        parserModifiedOf (runOps st l) = true)) ∧
    ((runOps st l).kind = ItemKind.capsule →
      parserModifiedOf (runOps st l) =
        ((runOps st l).parser_modified_own || (runOps st l).subitems.modified)) := by
  constructor
  · simp [itemModified, Bool.or_eq_true]
  · intro hk
    simp [parserModifiedOf, hk]

theorem claim_C6_modified_iff_witness :
    (itemModified (runOps stC8 []) = true ↔
      ((runOps stC8 []).storage_modified = true ∨
        parserModifiedOf (runOps stC8 []) = true)) ∧
    parserModifiedOf (runOps stC8 []) =
      ((runOps stC8 []).parser_modified_own || (runOps stC8 []).subitems.modified) :=
  ⟨(claim_C6_modified_iff stC8 []).1, (claim_C6_modified_iff stC8 []).2 (by decide)⟩

/-- C7: dispatching with format `binary` builds a `BinaryItem` whose
`_parse_data` stores the raw content under the single key `data` and
whose `serialize` returns exactly that content, for every content
string. -/
theorem claim_C7_binary_roundtrip (ap : AccessPoint) (d : MultiDict) (b : String)
    (h : ap.parser_name = some "binary") :
    getItemParser ap (some (PyVal.pstr b)) d =
      Except.ok (itemInit ap ItemKind.binary (some (PyVal.pstr b)) d) ∧
    (parseData (itemInit ap ItemKind.binary (some (PyVal.pstr b)) d)).1 =
      [("data", PyVal.pstr b)] ∧
    (itemSerialize (itemInit ap ItemKind.binary (some (PyVal.pstr b)) d)).1 =
      some (PyVal.pstr b) := by
  refine ⟨by simp [getItemParser, h, registeredFormats, List.find?], ?_, ?_⟩
  · simp [parseData, itemInit, getContent, PyVal.orEmpty]
  · simp [itemSerialize, rawParserProps, itemInit, parseData, getContent,
      PyVal.orEmpty, mdFind, List.find?]

theorem claim_C7_binary_roundtrip_witness :
    getItemParser (AccessPoint.mk [] [] (some "binary") "e" [])
        (some (PyVal.pstr "abc")) [] =
      Except.ok (itemInit (AccessPoint.mk [] [] (some "binary") "e" [])
        ItemKind.binary (some (PyVal.pstr "abc")) []) ∧
    (parseData (itemInit (AccessPoint.mk [] [] (some "binary") "e" [])
        ItemKind.binary (some (PyVal.pstr "abc")) [])).1 =
      [("data", PyVal.pstr "abc")] ∧
    (itemSerialize (itemInit (AccessPoint.mk [] [] (some "binary") "e" [])
        ItemKind.binary (some (PyVal.pstr "abc")) [])).1 =
      some (PyVal.pstr "abc") :=
  claim_C7_binary_roundtrip (AccessPoint.mk [] [] (some "binary") "e" []) [] "abc" rfl

/-- C8: on a capsule, every read of `parser_modified` recomputes
own-flag OR `subitems.modified` from the current subitem state (not a
cached value), and assignment stores only the own flag — so while the
subitems report modified, the aggregate stays true whatever is
assigned. -/
theorem claim_C8_capsule_parser_modified (st : ItemState) (v : Bool)
    (tl : TrackingList) (h : st.kind = ItemKind.capsule) :
    parserModifiedOf (capsuleSetParserModified st v) = (v || st.subitems.modified) ∧
    (st.subitems.modified = true →
      parserModifiedOf (capsuleSetParserModified st v) = true) ∧
    parserModifiedOf { st with subitems := tl } =
      (st.parser_modified_own || tl.modified) ∧
    (capsuleSetParserModified st v).parser_modified_own = v ∧
    (capsuleSetParserModified st v).subitems = st.subitems := by
  refine ⟨?_, ?_, ?_, rfl, rfl⟩
  · simp [parserModifiedOf, capsuleSetParserModified, h]
  · intro hm
    simp [parserModifiedOf, capsuleSetParserModified, h, hm]
  · simp [parserModifiedOf, h]

theorem claim_C8_capsule_parser_modified_witness :
    parserModifiedOf (capsuleSetParserModified stC8 false) =
      (false || stC8.subitems.modified) ∧
    parserModifiedOf (capsuleSetParserModified stC8 false) = true ∧
    parserModifiedOf { stC8 with subitems := TrackingList.mk [] false } =
      (stC8.parser_modified_own || (TrackingList.mk [] false).modified) :=
  ⟨(claim_C8_capsule_parser_modified stC8 false (TrackingList.mk [] false) rfl).1,
   (claim_C8_capsule_parser_modified stC8 false (TrackingList.mk [] false) rfl).2.1
     (by decide),
   (claim_C8_capsule_parser_modified stC8 false (TrackingList.mk [] false) rfl).2.2.1⟩

/-- C9 counterexample: dispatching with a null parser name and a
caller-supplied opener returning "abc" hands the base `Item` a `None`
opener (`Item(access_point, None, storage_properties)`), so the item's
raw content is the empty string, not the opener's content — the claim
that the returned item is constructed with the caller-supplied opener
fails in the null-format case. -/
theorem claim_C9_counterexample :
    getItemParser apC9 (some (PyVal.pstr "abc")) [] =
      Except.ok (itemInit apC9 ItemKind.base none []) ∧
    (getContent (itemInit apC9 ItemKind.base none [])).1 = "" ∧
    (PyVal.pstr "abc").orEmpty = "abc" ∧
    (getContent (itemInit apC9 ItemKind.base none [])).1 ≠
      (PyVal.pstr "abc").orEmpty := by
  refine ⟨by decide, by decide, by decide, by decide⟩

/-- C9 amended: a dispatch whose non-null format identifier matches a
registered variant builds the item with the caller's opener, access
point and storage snapshot, so its raw content comes from that opener;
a null format identifier builds the untyped base item with the access
point and snapshot but with a `None` opener, so its raw content is
empty regardless of the caller-supplied opener. -/
theorem claim_C9_amended_dispatch (ap : AccessPoint) (opener : Option PyVal)
    (d : MultiDict) :
    (ap.parser_name = some "binary" →
      getItemParser ap opener d = Except.ok (itemInit ap ItemKind.binary opener d) ∧
      (itemInit ap ItemKind.binary opener d).openerVal = opener.getD (PyVal.pstr "") ∧
      (getContent (itemInit ap ItemKind.binary opener d)).1 =
        (opener.getD (PyVal.pstr "")).orEmpty ∧
      (itemInit ap ItemKind.binary opener d).storageAliases = ap.storage_aliases ∧
      (itemInit ap ItemKind.binary opener d).parserAliases = ap.parser_aliases ∧
      (itemInit ap ItemKind.binary opener d).rawStorageProperties = d) ∧
    (ap.parser_name = none →
      getItemParser ap opener d = Except.ok (itemInit ap ItemKind.base none d) ∧
      (getContent (itemInit ap ItemKind.base none d)).1 = "" ∧
      (itemInit ap ItemKind.base none d).storageAliases = ap.storage_aliases ∧
      (itemInit ap ItemKind.base none d).parserAliases = ap.parser_aliases ∧
      (itemInit ap ItemKind.base none d).rawStorageProperties = d) := by
  constructor
  · intro h
    refine ⟨by simp [getItemParser, h, registeredFormats, List.find?], rfl, ?_,
      rfl, rfl, rfl⟩
    simp [getContent, itemInit]
  · intro h
    refine ⟨by simp [getItemParser, h], ?_, rfl, rfl, rfl⟩
    simp [getContent, itemInit, PyVal.orEmpty]

theorem claim_C9_amended_dispatch_witness :
    getItemParser (AccessPoint.mk [] [] (some "binary") "e" [])
        (some (PyVal.pstr "abc")) [] =
      Except.ok (itemInit (AccessPoint.mk [] [] (some "binary") "e" [])
        ItemKind.binary (some (PyVal.pstr "abc")) []) ∧
    (getContent (itemInit (AccessPoint.mk [] [] (some "binary") "e" [])
        ItemKind.binary (some (PyVal.pstr "abc")) [])).1 =
      ((some (PyVal.pstr "abc")).getD (PyVal.pstr "")).orEmpty ∧
    (getContent (itemInit apC9 ItemKind.base none [])).1 = "" :=
  ⟨((claim_C9_amended_dispatch (AccessPoint.mk [] [] (some "binary") "e" [])
      (some (PyVal.pstr "abc")) []).1 rfl).1,
   ((claim_C9_amended_dispatch (AccessPoint.mk [] [] (some "binary") "e" [])
      (some (PyVal.pstr "abc")) []).1 rfl).2.2.1,
   ((claim_C9_amended_dispatch apC9 (some (PyVal.pstr "abc")) []).2 rfl).2.1⟩

theorem heapRead_append_left (l l' : List MultiDict) (r : Nat)
    (hr : r < l.length) :
    Heap.read (Heap.mk (l ++ l')) r = Heap.read (Heap.mk l) r := by
  simp [Heap.read, List.getElem?_append_left hr]

theorem heapRead_concat (l : List MultiDict) (d : MultiDict) :
    Heap.read (Heap.mk (l ++ [d])) l.length = d := by
  simp [Heap.read, List.getElem?_concat_length]

theorem heapRead_write_ne (h : Heap) (i j : Nat) (d : MultiDict)
    (hij : i ≠ j) : (h.write i d).read j = h.read j := by
  simp [Heap.read, Heap.write, List.getElem?_set_ne hij]

theorem itemInitHeap_eq (h : Heap) (r : Nat) :
    itemInitHeap h r = (ItemRefs.mk h.cells.length (h.cells.length + 1),
      Heap.mk (h.cells ++ [h.read r, h.read r])) := by
  simp [itemInitHeap, Heap.alloc]

theorem itemInitHeap_fresh (h : Heap) (r : Nat) :
    (itemInitHeap h r).1.rawStorageRef = h.cells.length ∧
    (itemInitHeap h r).1.oldStorageRef = h.cells.length + 1 ∧
    (itemInitHeap h r).2.cells.length = h.cells.length + 2 ∧
    (∀ j, j < h.cells.length → (itemInitHeap h r).2.read j = h.read j) ∧
    (itemInitHeap h r).2.read (itemInitHeap h r).1.rawStorageRef = h.read r ∧
    (itemInitHeap h r).2.read (itemInitHeap h r).1.oldStorageRef = h.read r := by
  rw [itemInitHeap_eq h r]
  refine ⟨rfl, rfl, by simp, ?_, ?_, ?_⟩
  · intro j hj
    exact heapRead_append_left h.cells [h.read r, h.read r] j hj
  · show Heap.read (Heap.mk (h.cells ++ [h.read r, h.read r])) h.cells.length = h.read r
    have hsplit : h.cells ++ [h.read r, h.read r] =
        (h.cells ++ [h.read r]) ++ [h.read r] := by
      simp
    rw [hsplit]
    have hlt : h.cells.length < (h.cells ++ [h.read r]).length := by simp
    rw [heapRead_append_left (h.cells ++ [h.read r]) [h.read r] h.cells.length hlt]
    exact heapRead_concat h.cells (h.read r)
  · show Heap.read (Heap.mk (h.cells ++ [h.read r, h.read r]))
        (h.cells.length + 1) = h.read r
    have hsplit : h.cells ++ [h.read r, h.read r] =
        (h.cells ++ [h.read r]) ++ [h.read r] := by
      simp
    have hlen : (h.cells ++ [h.read r]).length = h.cells.length + 1 := by simp
    rw [hsplit, ← hlen]
    exact heapRead_concat (h.cells ++ [h.read r]) (h.read r)

theorem itemSetStorageHeap_frame (h : Heap) (it : ItemRefs)
    (al : List (String × String)) (k : String) (v : PyVal) (j : Nat)
    (hj : it.rawStorageRef ≠ j) :
    (itemSetStorageHeap h it al k v).read j = h.read j := by
  unfold itemSetStorageHeap
  exact heapRead_write_ne h it.rawStorageRef j _ hj

/-- C10: `Item.__init__` copies the caller's `storage_properties`
mapping into two fresh `MultiDict` objects and never writes to the
caller's object (including the shared mutable default): the caller's
cell is unchanged by construction and by any later storage write through
the item, and two items constructed from the same mapping use distinct
fresh cells, so a write through one leaves the other's store
unchanged. -/
theorem claim_C10_constructor_copies (h : Heap) (r : Nat)
    (hr : r < h.cells.length) :
    ((itemInitHeap h r).2.read r = h.read r) ∧
    ((itemInitHeap h r).1.rawStorageRef ≠ r ∧
      (itemInitHeap h r).1.oldStorageRef ≠ r) ∧
    ((itemInitHeap h r).2.read (itemInitHeap h r).1.rawStorageRef = h.read r) ∧
    ((itemInitHeap h r).2.read (itemInitHeap h r).1.oldStorageRef = h.read r) ∧
    (∀ al k v, (itemSetStorageHeap (itemInitHeap h r).2 (itemInitHeap h r).1
        al k v).read r = h.read r) ∧
    ((itemInitHeap (itemInitHeap h r).2 r).1.rawStorageRef ≠
      (itemInitHeap h r).1.rawStorageRef) ∧
    (∀ al k v,
      (itemSetStorageHeap (itemInitHeap (itemInitHeap h r).2 r).2
          (itemInitHeap (itemInitHeap h r).2 r).1 al k v).read
        (itemInitHeap h r).1.rawStorageRef =
      (itemInitHeap (itemInitHeap h r).2 r).2.read
        (itemInitHeap h r).1.rawStorageRef) := by
  obtain ⟨g1, g2, g3, g4, g5, g6⟩ := itemInitHeap_fresh h r
  obtain ⟨j1, j2, j3, j4, j5, j6⟩ := itemInitHeap_fresh (itemInitHeap h r).2 r
  have hraw : (itemInitHeap h r).1.rawStorageRef ≠ r := by
    rw [g1]
    exact Nat.ne_of_gt hr
  have hold : (itemInitHeap h r).1.oldStorageRef ≠ r := by
    rw [g2]
    exact Nat.ne_of_gt (Nat.lt_succ_of_lt hr)
  refine ⟨g4 r hr, ⟨hraw, hold⟩, g5, g6, ?_, ?_, ?_⟩
  · intro al k v
    rw [itemSetStorageHeap_frame (itemInitHeap h r).2 (itemInitHeap h r).1
      al k v r hraw]
    exact g4 r hr
  · rw [j1, g1, g3]
    intro hcontra
    omega
  · intro al k v
    refine itemSetStorageHeap_frame (itemInitHeap (itemInitHeap h r).2 r).2
      (itemInitHeap (itemInitHeap h r).2 r).1 al k v
      (itemInitHeap h r).1.rawStorageRef ?_
    rw [j1, g1, g3]
    intro hcontra
    omega

theorem claim_C10_constructor_copies_witness :
    0 < (Heap.mk [[("x", PyVal.pstr "1")]]).cells.length ∧
    (itemInitHeap (Heap.mk [[("x", PyVal.pstr "1")]]) 0).2.read 0 =
      (Heap.mk [[("x", PyVal.pstr "1")]]).read 0 ∧
    (itemSetStorageHeap (itemInitHeap (Heap.mk [[("x", PyVal.pstr "1")]]) 0).2
        (itemInitHeap (Heap.mk [[("x", PyVal.pstr "1")]]) 0).1
        [] "x" (PyVal.pstr "2")).read 0 =
      (Heap.mk [[("x", PyVal.pstr "1")]]).read 0 ∧
    (itemInitHeap (itemInitHeap (Heap.mk [[("x", PyVal.pstr "1")]]) 0).2
        0).1.rawStorageRef ≠
      (itemInitHeap (Heap.mk [[("x", PyVal.pstr "1")]]) 0).1.rawStorageRef :=
  ⟨by decide,
   (claim_C10_constructor_copies (Heap.mk [[("x", PyVal.pstr "1")]]) 0 (by decide)).1,
   (claim_C10_constructor_copies (Heap.mk [[("x", PyVal.pstr "1")]]) 0
     (by decide)).2.2.2.2.1 [] "x" (PyVal.pstr "2"),
   (claim_C10_constructor_copies (Heap.mk [[("x", PyVal.pstr "1")]]) 0
     (by decide)).2.2.2.2.2.1⟩
